import Mathlib

/-!
Shallow embedding of `generate_markdown.py` from the awesome-colab-notebooks
repository.  Python dictionaries are modelled as association lists kept in
insertion order with unique keys (matching CPython dict semantics), Python
exceptions (`IndexError`, `ValueError`, `ZeroDivisionError`) as `Option.none`,
Python floats restricted to the values the program actually produces as `ℚ`
plus an explicit infinity marker, and Python's stable `sorted` as Mathlib's
stable `List.insertionSort`.
-/

namespace GenMD

/- Rational arithmetic is used to evaluate trend scores on concrete inputs;
Mathlib seals these operations, which blocks `decide`. -/
attribute [local semireducible] Rat.inv Rat.mul Rat.add Rat.sub

/-- An author entry `(name, profile_url)` as it appears in `project['author']`. -/
abbrev AuthorKey := String × String

/-- One element of `project['links']`: a kind tag (`"git"`, `"doi"`, `"pypi"`, ...),
a url, and the trailing numeric metric carried by `git` (stars) and `doi`
(citations) links; for other kinds the metric is unused. -/
structure Link where
  kind : String
  url : String
  metric : Nat
deriving DecidableEq, Repr

/-- A project record from `research.json` / `tutorials.json`. -/
structure Project where
  name : String
  description : String
  author : List AuthorKey
  links : List Link
  colab : String
  update : Nat
deriving DecidableEq, Repr

/-! ### Python dict / list primitives -/

/-- `dict.get` / first-match lookup in an insertion-ordered association list. -/
def dlookup {β : Type} : List (String × β) → String → Option β
  | [], _ => none
  | (k, v) :: m, u => if k = u then some v else dlookup m u

/-- CPython `d[k] = v`: update the existing key in place (keeping its
insertion position) or append a fresh key at the end. -/
def dictSet {β : Type} : List (String × β) → String → β → List (String × β)
  | [], k, v => [(k, v)]
  | (k0, v0) :: m, k, v => if k0 = k then (k, v) :: m else (k0, v0) :: dictSet m k v

/-- `Option`-valued `mapM` over a list: the whole computation fails as soon as
one element fails (a Python exception raised while evaluating a sort key). -/
def omap {α β : Type} (f : α → Option β) : List α → Option (List β)
  | [] => some []
  | a :: l =>
    match f a with
    | none => none
    | some b => (omap f l).map (b :: ·)

/-! ### RepoKey canonicalization (lines 96–98 and 199–201)

```python
idx = url.index('/', 19) + 1
idx = url.find('/', idx)
key = url[:idx] if idx != -1 else url
```
`str.index` raises `ValueError` when no occurrence exists, hence the `Option`.
Strings are modelled at the character-list level so that Python's positional
slicing is exact. -/

/-- Index of the first occurrence of `c` in a character list. -/
def findIdxFrom (c : Char) : List Char → Option Nat
  | [] => none
  | a :: l => if a = c then some 0 else (findIdxFrom c l).map (· + 1)

/-- Python `s.find(c, start)` / `s.index(c, start)`: first occurrence of `c`
at position `≥ start`, `none` when there is none. -/
def findFrom (s : List Char) (c : Char) (start : Nat) : Option Nat :=
  (findIdxFrom c (s.drop start)).map (· + start)

/-- The repository-key canonicalization of `get_top_repos` / `get_trending`:
skip past the first `'/'` at position ≥ 19 (the length of
`"https://github.com/"`), then truncate at the following `'/'` when present.
`none` models the `ValueError` raised by `str.index` on urls with no slash at
position ≥ 19. -/
def repoKey (url : List Char) : Option (List Char) :=
  match findFrom url '/' 19 with
  | none => none
  | some i =>
    match findFrom url '/' (i + 1) with
    | none => some url
    | some j => some (url.take j)

/-- String-level wrapper used by the aggregators. -/
def repoKeyS (url : String) : Option String :=
  (repoKey url.data).map String.mk

/-- The fixed scheme-and-host prefix of the urls the program processes; its
length is the `19` hard-coded in the source. -/
def ghPrefix : List Char := "https://github.com/".data

theorem ghPrefix_length : ghPrefix.length = 19 := by decide

/-! Helper lemmas about `findIdxFrom`. -/

theorem findIdxFrom_of_not_mem {c : Char} {l : List Char} (h : c ∉ l) :
    findIdxFrom c l = none := by
  induction l with
  | nil => rfl
  | cons a l ih =>
    simp only [List.mem_cons, not_or] at h
    simp [findIdxFrom, Ne.symm h.1, ih h.2]

theorem findIdxFrom_append_cons {c : Char} {l₁ l₂ : List Char} (h : c ∉ l₁) :
    findIdxFrom c (l₁ ++ c :: l₂) = some l₁.length := by
  induction l₁ with
  | nil => simp [findIdxFrom]
  | cons a l ih =>
    simp only [List.mem_cons, not_or] at h
    simp [findIdxFrom, Ne.symm h.1, ih h.2]

theorem repoKey_of_find_none {url : List Char} {i : Nat}
    (h1 : findFrom url '/' 19 = some i) (h2 : findFrom url '/' (i + 1) = none) :
    repoKey url = some url := by
  unfold repoKey
  rw [h1]
  simp only [h2]

theorem repoKey_of_find_some {url : List Char} {i j : Nat}
    (h1 : findFrom url '/' 19 = some i) (h2 : findFrom url '/' (i + 1) = some j) :
    repoKey url = some (url.take j) := by
  unfold repoKey
  rw [h1]
  simp only [h2]

theorem repoKey_gh (s1 s2 rest : List Char) (h1 : '/' ∉ s1) (h2 : '/' ∉ s2)
    (hrest : rest = [] ∨ ∃ r, rest = '/' :: r) :
    repoKey (ghPrefix ++ s1 ++ '/' :: (s2 ++ rest)) = some (ghPrefix ++ s1 ++ '/' :: s2) := by
  have hdrop1 : (ghPrefix ++ s1 ++ '/' :: (s2 ++ rest)).drop 19
      = s1 ++ '/' :: (s2 ++ rest) := by
    rw [List.append_assoc]
    exact List.drop_left' ghPrefix_length
  have hfind1 : findFrom (ghPrefix ++ s1 ++ '/' :: (s2 ++ rest)) '/' 19
      = some (s1.length + 19) := by
    rw [findFrom, hdrop1, findIdxFrom_append_cons h1]
    rfl
  have hdrop2 : (ghPrefix ++ s1 ++ '/' :: (s2 ++ rest)).drop (s1.length + 19 + 1)
      = s2 ++ rest := by
    have hsh : ghPrefix ++ s1 ++ '/' :: (s2 ++ rest)
        = (ghPrefix ++ s1 ++ ['/']) ++ (s2 ++ rest) := by
      simp
    rw [hsh]
    refine List.drop_left' ?_
    simp [ghPrefix_length]
    omega
  rcases hrest with hr | ⟨r, hr⟩
  · subst hr
    have hfind2 : findFrom (ghPrefix ++ s1 ++ '/' :: (s2 ++ [])) '/' (s1.length + 19 + 1)
        = none := by
      rw [findFrom, hdrop2, List.append_nil, findIdxFrom_of_not_mem h2]
      rfl
    rw [repoKey_of_find_none hfind1 hfind2]
    simp
  · subst hr
    have hfind2 : findFrom (ghPrefix ++ s1 ++ '/' :: (s2 ++ '/' :: r)) '/' (s1.length + 19 + 1)
        = some (s2.length + (s1.length + 19 + 1)) := by
      rw [findFrom, hdrop2, findIdxFrom_append_cons h2]
      rfl
    rw [repoKey_of_find_some hfind1 hfind2]
    have htake : (ghPrefix ++ s1 ++ '/' :: (s2 ++ '/' :: r)).take (s2.length + (s1.length + 19 + 1))
        = ghPrefix ++ s1 ++ '/' :: s2 := by
      have hsh : ghPrefix ++ s1 ++ '/' :: (s2 ++ '/' :: r)
          = (ghPrefix ++ s1 ++ '/' :: s2) ++ '/' :: r := by
        simp
      rw [hsh]
      refine List.take_left' ?_
      simp [ghPrefix_length]
      omega
    rw [htake]

/-- C6: RepoKey canonicalization truncates a `https://github.com/`-rooted url to
scheme, host and the first two path segments: with a deeper path the url is cut
after the second segment, and a url with exactly two path segments maps to
itself unchanged.  The two concrete examples of the claim are included. -/
theorem C6_repoKey_canonicalization :
    (∀ s1 s2 r : List Char, '/' ∉ s1 → '/' ∉ s2 →
      repoKey (ghPrefix ++ s1 ++ '/' :: (s2 ++ '/' :: r)) = some (ghPrefix ++ s1 ++ '/' :: s2))
    ∧ (∀ s1 s2 : List Char, '/' ∉ s1 → '/' ∉ s2 →
      repoKey (ghPrefix ++ s1 ++ '/' :: s2) = some (ghPrefix ++ s1 ++ '/' :: s2))
    ∧ repoKeyS "https://github.com/org/repo/tree/main/x" = some "https://github.com/org/repo"
    ∧ repoKeyS "https://github.com/org/repo" = some "https://github.com/org/repo" := by
  refine ⟨fun s1 s2 r h1 h2 => repoKey_gh s1 s2 ('/' :: r) h1 h2 (Or.inr ⟨r, rfl⟩),
    fun s1 s2 h1 h2 => ?_, by decide, by decide⟩
  have := repoKey_gh s1 s2 [] h1 h2 (Or.inl rfl)
  simpa using this

/-- Witness for C6: the general conjuncts applied at the concrete org/repo
segments of the claim. -/
theorem C6_repoKey_canonicalization_witness :
    ('/' ∉ "org".data ∧ '/' ∉ "repo".data)
    ∧ repoKey (ghPrefix ++ "org".data ++ '/' :: ("repo".data ++ '/' :: "tree/main/x".data))
        = some (ghPrefix ++ "org".data ++ '/' :: "repo".data)
    ∧ repoKey (ghPrefix ++ "org".data ++ '/' :: "repo".data)
        = some (ghPrefix ++ "org".data ++ '/' :: "repo".data) :=
  ⟨⟨by decide, by decide⟩,
    C6_repoKey_canonicalization.1 "org".data "repo".data "tree/main/x".data
      (by decide) (by decide),
    C6_repoKey_canonicalization.2.1 "org".data "repo".data (by decide) (by decide)⟩

/-! ### Stable sorting

Python's `sorted` is stable; a stable sort is uniquely determined by the key
order, so `List.insertionSort` (stable) models it exactly.  `descBySnd` is
`sorted(..., key=lambda p: p[1], reverse=True)`. -/

def descBySnd {α β : Type} [LinearOrder β] (p q : α × β) : Prop := q.2 ≤ p.2

instance {α β : Type} [LinearOrder β] : DecidableRel (@descBySnd α β _) :=
  fun p q => inferInstanceAs (Decidable (q.2 ≤ p.2))

instance {α β : Type} [LinearOrder β] : IsTotal (α × β) descBySnd :=
  ⟨fun a b => le_total b.2 a.2⟩

instance {α β : Type} [LinearOrder β] : IsTrans (α × β) descBySnd :=
  ⟨fun _ _ _ h h2 => le_trans h2 h⟩

/-! ### `get_top_authors` (lines 68–86)

```python
cnt = Counter(authors)
most_common = cnt.most_common()
contributions = most_common[topK][1]
idx = topK
while idx < len(most_common) and most_common[idx][1] == contributions:
    idx += 1
```
`Counter.most_common()` is `sorted(items, key=count, reverse=True)` over the
first-occurrence-ordered counter entries; `most_common[topK]` raises
`IndexError` when at most `topK` entries exist, hence the `Option`. -/

/-- `Counter` update: increment an existing key in place, append a new key. -/
def bump : List (AuthorKey × Nat) → AuthorKey → List (AuthorKey × Nat)
  | [], a => [(a, 1)]
  | (k, n) :: m, a => if k = a then (k, n + 1) :: m else (k, n) :: bump m a

/-- `Counter(authors)` over the concatenated per-project author lists. -/
def authorCounts (ps : List Project) : List (AuthorKey × Nat) :=
  (ps.flatMap (·.author)).foldl bump []

/-- placeholder entry used with `List.getD`. -/
def dummyA : AuthorKey × Nat := (("", ""), 0)

/-- The `while` loop of `get_top_authors`: starting from `idx`, advance while
the entry count equals `c`.  The fuel argument is called with `mc.length`,
which bounds the number of iterations. -/
def extendFrom (mc : List (AuthorKey × Nat)) (c : Nat) : Nat → Nat → Nat
  | idx, 0 => idx
  | idx, fuel + 1 =>
    if idx < mc.length ∧ (mc.getD idx dummyA).2 = c then extendFrom mc c (idx + 1) fuel
    else idx

/-- `cnt.most_common()`. -/
def mostCommon (cnt : List (AuthorKey × Nat)) : List (AuthorKey × Nat) :=
  cnt.insertionSort descBySnd

/-- The selection core of `get_top_authors`: the tie-extended prefix
`most_common[:idx]` together with the effective cutoff `idx` (stored into the
global `TOP_K` by the source). -/
def selectTopAuthors (cnt : List (AuthorKey × Nat)) (topK : Nat) :
    Option (List (AuthorKey × Nat) × Nat) :=
  let mc := mostCommon cnt
  match mc[topK]? with
  | none => none
  | some e => some (mc.take (extendFrom mc e.2 topK mc.length), extendFrom mc e.2 topK mc.length)

theorem extendFrom_ge (mc : List (AuthorKey × Nat)) (c : Nat) :
    ∀ fuel idx, idx ≤ extendFrom mc c idx fuel := by
  intro fuel
  induction fuel with
  | zero => intro idx; simp [extendFrom]
  | succ fuel ih =>
    intro idx
    rw [extendFrom]
    split
    · exact le_trans (Nat.le_succ idx) (ih (idx + 1))
    · exact le_refl idx

theorem extendFrom_le_length (mc : List (AuthorKey × Nat)) (c : Nat) :
    ∀ fuel idx, idx ≤ mc.length → extendFrom mc c idx fuel ≤ mc.length := by
  intro fuel
  induction fuel with
  | zero => intro idx h; simpa [extendFrom] using h
  | succ fuel ih =>
    intro idx h
    rw [extendFrom]
    by_cases hcond : idx < mc.length ∧ (mc.getD idx dummyA).2 = c
    · rw [if_pos hcond]
      exact ih (idx + 1) hcond.1
    · rw [if_neg hcond]
      exact h

theorem extendFrom_all_eq (mc : List (AuthorKey × Nat)) (c : Nat) :
    ∀ fuel idx j, idx ≤ j → j < extendFrom mc c idx fuel → (mc.getD j dummyA).2 = c := by
  intro fuel
  induction fuel with
  | zero =>
    intro idx j h1 h2
    rw [extendFrom] at h2
    omega
  | succ fuel ih =>
    intro idx j h1 h2
    rw [extendFrom] at h2
    by_cases hcond : idx < mc.length ∧ (mc.getD idx dummyA).2 = c
    · rw [if_pos hcond] at h2
      rcases Nat.eq_or_lt_of_le h1 with he | hl
      · exact he ▸ hcond.2
      · exact ih (idx + 1) j hl h2
    · rw [if_neg hcond] at h2
      omega

theorem extendFrom_stop (mc : List (AuthorKey × Nat)) (c : Nat) :
    ∀ fuel idx, mc.length - idx ≤ fuel →
      extendFrom mc c idx fuel < mc.length →
      (mc.getD (extendFrom mc c idx fuel) dummyA).2 ≠ c := by
  intro fuel
  induction fuel with
  | zero =>
    intro idx hf h
    rw [extendFrom] at h ⊢
    omega
  | succ fuel ih =>
    intro idx hf h
    rw [extendFrom] at h ⊢
    by_cases hcond : idx < mc.length ∧ (mc.getD idx dummyA).2 = c
    · rw [if_pos hcond] at h ⊢
      exact ih (idx + 1) (by omega) h
    · rw [if_neg hcond] at h ⊢
      intro hc
      exact hcond ⟨h, hc⟩

theorem extendFrom_past_start (mc : List (AuthorKey × Nat)) (c : Nat) (fuel idx : Nat)
    (hlen : idx < mc.length) (hc : (mc.getD idx dummyA).2 = c) (hf : 0 < fuel) :
    idx + 1 ≤ extendFrom mc c idx fuel := by
  cases fuel with
  | zero => omega
  | succ fuel =>
    rw [extendFrom, if_pos ⟨hlen, hc⟩]
    exact extendFrom_ge mc c fuel (idx + 1)

theorem selectTopAuthors_eq (cnt : List (AuthorKey × Nat)) (k : Nat)
    (hk : k < (mostCommon cnt).length) :
    selectTopAuthors cnt k
      = some ((mostCommon cnt).take
            (extendFrom (mostCommon cnt) (((mostCommon cnt).getD k dummyA).2) k
              (mostCommon cnt).length),
          extendFrom (mostCommon cnt) (((mostCommon cnt).getD k dummyA).2) k
            (mostCommon cnt).length) := by
  unfold selectTopAuthors
  have h : (mostCommon cnt)[k]? = some ((mostCommon cnt).getD k dummyA) := by
    rw [List.getElem?_eq_getElem hk, List.getD_eq_getElem _ _ hk]
  simp only [h]

/-- C1 (amended): the author top-K selection sorts entries by count descending
and anchors its cutoff at the (k+1)-th entry (0-based index `k`), not the k-th:
when more than `k` entries exist, the returned prefix always includes at least
`k + 1` entries, every included entry at position ≥ k shares the count of the
entry at index `k`, and the first excluded entry (when one exists) has a count
different from the count at index `k`; in particular, when the count strictly
decreases right after index `k`, exactly `k + 1` entries are returned — not
`k`, as the original claim states. -/
theorem C1_amended_author_topK (cnt : List (AuthorKey × Nat)) (k : Nat)
    (hk : k < (mostCommon cnt).length) :
    List.Sorted descBySnd (mostCommon cnt)
    ∧ ∃ idx, selectTopAuthors cnt k = some ((mostCommon cnt).take idx, idx)
      ∧ k + 1 ≤ idx ∧ idx ≤ (mostCommon cnt).length
      ∧ (∀ j, k ≤ j → j < idx →
          ((mostCommon cnt).getD j dummyA).2 = ((mostCommon cnt).getD k dummyA).2)
      ∧ (idx < (mostCommon cnt).length →
          ((mostCommon cnt).getD idx dummyA).2 ≠ ((mostCommon cnt).getD k dummyA).2) := by
  refine ⟨List.sorted_insertionSort _ _,
    extendFrom (mostCommon cnt) (((mostCommon cnt).getD k dummyA).2) k (mostCommon cnt).length,
    selectTopAuthors_eq cnt k hk, ?_, ?_, ?_, ?_⟩
  · exact extendFrom_past_start _ _ _ k hk rfl (by omega)
  · exact extendFrom_le_length _ _ _ k (le_of_lt hk)
  · exact fun j h1 h2 => extendFrom_all_eq _ _ _ k j h1 h2
  · exact fun h => extendFrom_stop _ _ _ k (by omega) h

/-- Concrete count mapping refuting C1 as stated: counts 5, 4, 3, 2 strictly
decrease, so with k = 2 the claimed behavior returns exactly 2 entries. -/
def cntC1 : List (AuthorKey × Nat) :=
  [(("a", "la"), 5), (("b", "lb"), 4), (("c", "lc"), 3), (("d", "ld"), 2)]

/-- C1 counterexample: on counts `[5, 4, 3, 2]` with requested `k = 2` the
count at position k+1 (value 3) is strictly smaller than at position k
(value 4), so the claim mandates exactly 2 returned entries; the code returns
3 entries (it always includes the entry at 0-based index `topK`). -/
theorem C1_counterexample :
    (selectTopAuthors cntC1 2).map (fun r => r.1.length) = some 3
    ∧ (selectTopAuthors cntC1 2).map (fun r => r.1.length) ≠ some 2 := by
  exact ⟨by decide, by decide⟩

/-- Witness for C1 (amended) at the concrete mapping `cntC1`, k = 2. -/
theorem C1_amended_author_topK_witness :
    2 < (mostCommon cntC1).length
    ∧ (List.Sorted descBySnd (mostCommon cntC1)
      ∧ ∃ idx, selectTopAuthors cntC1 2 = some ((mostCommon cntC1).take idx, idx)
        ∧ 2 + 1 ≤ idx ∧ idx ≤ (mostCommon cntC1).length
        ∧ (∀ j, 2 ≤ j → j < idx →
            ((mostCommon cntC1).getD j dummyA).2 = ((mostCommon cntC1).getD 2 dummyA).2)
        ∧ (idx < (mostCommon cntC1).length →
            ((mostCommon cntC1).getD idx dummyA).2 ≠ ((mostCommon cntC1).getD 2 dummyA).2)) :=
  ⟨by decide, C1_amended_author_topK cntC1 2 (by decide)⟩

/-! ### `get_trending` scores (lines 208–210)

```python
trending_repos    = sorted(new_stars,     key=lambda url:  new_stars[url] / old_stars.get(url, float('inf')), reverse=True)[:topK]
trending_papers   = sorted(new_citations, key=lambda name: new_citations[name][1] / max(old_citations.get(name, ['', float('inf')])[1], 1), reverse=True)[:topK]
trending_packages = sorted(packages,      key=lambda p:    p[1] / (p[2] - p[1]), reverse=True)[:topK]
```
-/

/-- A denominator as the trend scores produce it: a count, or `float('inf')`
(the default for keys missing from the previous snapshot). -/
inductive PyDenom where
  | fin (n : Nat)
  | inf
deriving DecidableEq, Repr

/-- Python division of a count by such a denominator: `cur / inf == 0.0`;
dividing by the number `0` raises `ZeroDivisionError` (modelled `none`). -/
def pyDivNat (cur : Nat) : PyDenom → Option ℚ
  | .inf => some 0
  | .fin n => if n = 0 then none else some ((cur : ℚ) / n)

/-- The `max(·, 1)` the paper score applies to its denominator
(`max(inf, 1) == inf` in Python). -/
def pmax1 : PyDenom → PyDenom
  | .inf => .inf
  | .fin n => .fin (max n 1)

/-- Repo trend score `new_stars[url] / old_stars.get(url, float('inf'))`. -/
def repoScore (cur : Nat) (prev : Option Nat) : Option ℚ :=
  pyDivNat cur (match prev with | none => .inf | some p => .fin p)

/-- Paper trend score
`new_citations[name][1] / max(old_citations.get(name, ['', float('inf')])[1], 1)`. -/
def paperScore (cur : Nat) (prev : Option Nat) : Option ℚ :=
  pyDivNat cur (pmax1 (match prev with | none => .inf | some p => .fin p))

/-- Package trend score `p[1] / (p[2] - p[1])` for `p = (name, last_month,
total)`: Python int subtraction, and an unguarded `ZeroDivisionError` when
`total == last_month`. -/
def pkgScore (lastMonth total : Nat) : Option ℚ :=
  if (total : Int) - (lastMonth : Int) = 0 then none
  else some ((lastMonth : ℚ) / ((total : ℚ) - (lastMonth : ℚ)))

/-- The repo keys paired with their scores, stable-sorted descending by score;
`none` when evaluating some key's score raises. -/
def rankRepos (newStars oldStars : List (String × Nat)) : Option (List (String × ℚ)) :=
  (omap (fun p => (repoScore p.2 (dlookup oldStars p.1)).map (fun q => (p.1, q))) newStars).map
    (fun scored => scored.insertionSort descBySnd)

/-- `trending_repos` of line 208 (keys only, truncated to `topK`). -/
def trendingRepos (newStars oldStars : List (String × Nat)) (topK : Nat) :
    Option (List String) :=
  (rankRepos newStars oldStars).map (fun l => (l.take topK).map (·.1))

/-- The paper names paired with their scores, stable-sorted descending. -/
def rankPapers (newCits oldCits : List (String × String × Nat)) :
    Option (List (String × ℚ)) :=
  (omap (fun p => (paperScore p.2.2 ((dlookup oldCits p.1).map (·.2))).map
      (fun q => (p.1, q))) newCits).map
    (fun scored => scored.insertionSort descBySnd)

/-- `trending_papers` of line 209 (names only, truncated to `topK`). -/
def trendingPapers (newCits oldCits : List (String × String × Nat)) (topK : Nat) :
    Option (List String) :=
  (rankPapers newCits oldCits).map (fun l => (l.take topK).map (·.1))

/-- The package triples paired with their scores, stable-sorted descending. -/
def rankPackages (pkgs : List (String × Nat × Nat)) :
    Option (List ((String × Nat × Nat) × ℚ)) :=
  (omap (fun p => (pkgScore p.2.1 p.2.2).map (fun q => (p, q))) pkgs).map
    (fun scored => scored.insertionSort descBySnd)

/-- `trending_packages` of line 210, truncated to `topK`. -/
def trendingPackages (pkgs : List (String × Nat × Nat)) (topK : Nat) :
    Option (List (String × Nat × Nat)) :=
  (rankPackages pkgs).map (fun l => (l.take topK).map (·.1))

theorem omap_isSome {α β : Type} (f : α → Option β) (l : List α)
    (h : ∀ a ∈ l, (f a).isSome) : (omap f l).isSome := by
  induction l with
  | nil => rfl
  | cons a l ih =>
    rw [omap]
    cases hfa : f a with
    | none =>
      have := h a (List.mem_cons_self a l)
      rw [hfa] at this
      exact absurd this (by simp)
    | some b =>
      have := ih (fun x hx => h x (List.mem_cons_of_mem a hx))
      simpa using this

/-- C2: the package trend score equals `last_month / (total - last_month)`
(the spec's example `30/100 → 3/7` holds), but when `total == last_month`
the code performs an unguarded division by zero: the score evaluation raises
`ZeroDivisionError` (modelled `none`) and the whole package trending
computation fails, instead of deterministically yielding a reported error or
`+infinity`. -/
theorem C2_pkgScore_div_fault :
    pkgScore 30 100 = some (3 / 7)
    ∧ pkgScore 100 100 = none
    ∧ trendingPackages [("p", 100, 100)] 20 = none := by
  refine ⟨?_, by decide, by decide⟩
  rw [pkgScore]
  norm_num

/-- C3 counterexample: key "A" (current 1000, absent from the previous
snapshot, score 0) does not rank below key "B" (positive prior baseline 5,
current 0, score 0): the trending output lists "A" first. -/
theorem C3_counterexample :
    trendingRepos [("A", 1000), ("B", 0)] [("B", 5)] 2 = some ["A", "B"]
    ∧ trendingRepos [("A", 1000), ("B", 0)] [("B", 5)] 2 ≠ some ["B", "A"] :=
  ⟨by decide, by decide⟩

/-- C3 (amended): a key absent from the previous snapshot scores
`current / inf = 0`; a key with a positive prior baseline scores
`current / prior`, which is strictly positive whenever its current value is
also positive; the ranked list is sorted descending by score, so a
missing-baseline key ranks below every key with a positive prior baseline and
a positive current value; the claim's own example (current=1000 with no prior
vs current=10 with prior=5) ranks as claimed. -/
theorem C3_amended_missing_baseline :
    (∀ cur : Nat, repoScore cur none = some 0)
    ∧ (∀ cur prev : Nat, 0 < prev →
        repoScore cur (some prev) = some ((cur : ℚ) / (prev : ℚ))
        ∧ (0 < cur → 0 < ((cur : ℚ) / (prev : ℚ))))
    ∧ (∀ ns os : List (String × Nat), ∀ l, rankRepos ns os = some l →
        List.Sorted descBySnd l)
    ∧ trendingRepos [("A", 1000), ("B", 10)] [("B", 5)] 2 = some ["B", "A"] := by
  refine ⟨fun cur => rfl, fun cur prev hp => ⟨?_, fun hc => ?_⟩, fun ns os l h => ?_, by decide⟩
  · rw [repoScore, pyDivNat, if_neg (Nat.pos_iff_ne_zero.mp hp)]
  · exact div_pos (by exact_mod_cast hc) (by exact_mod_cast hp)
  · rw [rankRepos] at h
    rcases Option.map_eq_some'.mp h with ⟨scored, _, hsort⟩
    exact hsort ▸ List.sorted_insertionSort _ _

/-- Witness for C3 (amended): conjuncts applied at the claim's example. -/
theorem C3_amended_missing_baseline_witness :
    repoScore 1000 none = some 0
    ∧ (0 : Nat) < 5
    ∧ repoScore 10 (some 5) = some ((10 : ℚ) / (5 : ℚ))
    ∧ (0 : ℚ) < (10 : ℚ) / (5 : ℚ)
    ∧ List.Sorted descBySnd [("B", (2 : ℚ)), ("A", (0 : ℚ))] :=
  ⟨C3_amended_missing_baseline.1 1000, by decide,
    (C3_amended_missing_baseline.2.1 10 5 (by decide)).1,
    (C3_amended_missing_baseline.2.1 10 5 (by decide)).2 (by decide),
    C3_amended_missing_baseline.2.2.1 [("A", 1000), ("B", 10)] [("B", 5)]
      [("B", (2 : ℚ)), ("A", (0 : ℚ))] (by decide)⟩

/-- C9: paper trend scoring is total — its denominator is clamped by
`max(·, 1)` and thus never zero, over every previous-citation snapshot — while
repo trend scoring has no clamp and divides by zero when the previous snapshot
maps a repo key to star count 0 and that repo appears in the current data. -/
theorem C9_paper_total_repo_partial :
    (∀ (cur : Nat) (prev : Option Nat), (paperScore cur prev).isSome)
    ∧ (∀ (newCits oldCits : List (String × String × Nat)) (k : Nat),
        (trendingPapers newCits oldCits k).isSome)
    ∧ repoScore 1 (some 0) = none
    ∧ trendingRepos [("https://github.com/o/r", 1)] [("https://github.com/o/r", 0)] 20
        = none := by
  have hps : ∀ (cur : Nat) (prev : Option Nat), (paperScore cur prev).isSome := by
    intro cur prev
    cases prev with
    | none => rfl
    | some p =>
      rw [paperScore, pmax1, pyDivNat]
      have : max p 1 ≠ 0 := by
        have := Nat.le_max_right p 1
        omega
      rw [if_neg this]
      rfl
  refine ⟨hps, fun nc oc k => ?_, by decide, by decide⟩
  rw [trendingPapers, rankPapers]
  have hms : (omap (fun p => (paperScore p.2.2 ((dlookup oc p.1).map (·.2))).map
      (fun q => (p.1, q))) nc).isSome := by
    refine omap_isSome _ _ (fun a _ => ?_)
    have := hps a.2.2 ((dlookup oc a.1).map (·.2))
    simpa using this
  rcases Option.isSome_iff_exists.mp hms with ⟨v, hv⟩
  rw [hv]
  rfl

/-! ### `get_top_papers` aggregation (lines 108–115)

```python
for project in research + tutorials:
    for link in project['links']:
        if link[0] == 'doi':
            if link[1] not in repos or link[2] > repos[link[1]][1]:
                repos[link[1]] = (project['name'], link[2])
            break
```
-/

/-- The first `doi` link of a project, as `(url, citations)` (the loop
`break`s right after processing it). -/
def firstDoi (p : Project) : Option (String × Nat) :=
  (p.links.find? (fun l => l.kind == "doi")).map (fun l => (l.url, l.metric))

/-- The citation-count component for doi url `u` in the aggregation dict. -/
def lookCites (m : List (String × String × Nat)) (u : String) : Option Nat :=
  (dlookup m u).map (·.2)

/-- One step of the `get_top_papers` dict build. -/
def paperStep (m : List (String × String × Nat)) (p : Project) :
    List (String × String × Nat) :=
  match firstDoi p with
  | none => m
  | some (u, c) =>
    match lookCites m u with
    | none => dictSet m u (p.name, c)
    | some c0 => if c0 < c then dictSet m u (p.name, c) else m

/-- The doi → (project name, citations) dict built by `get_top_papers`. -/
def paperCitations (ps : List Project) : List (String × String × Nat) :=
  ps.foldl paperStep []

/-- All citation counts contributed to doi `d`: one per project whose first
doi link cites `d`, in processing order. -/
def contribs (ps : List Project) (d : String) : List Nat :=
  ps.filterMap (fun p =>
    match firstDoi p with
    | none => none
    | some (u, c) => if u = d then some c else none)

/-- Running maximum of an optional accumulated count and new contributions. -/
def combineMax : Option Nat → List Nat → Option Nat
  | o, [] => o
  | none, c :: l => combineMax (some c) l
  | some c0, c :: l => combineMax (some (max c0 c)) l

theorem dlookup_dictSet_self {β : Type} (m : List (String × β)) (k : String) (v : β) :
    dlookup (dictSet m k v) k = some v := by
  induction m with
  | nil => simp [dictSet, dlookup]
  | cons p m ih =>
    obtain ⟨k0, v0⟩ := p
    by_cases h : k0 = k
    · simp [dictSet, h, dlookup]
    · simp [dictSet, h, dlookup, ih]

theorem dlookup_dictSet_ne {β : Type} (m : List (String × β)) (k d : String) (v : β)
    (h : k ≠ d) : dlookup (dictSet m k v) d = dlookup m d := by
  induction m with
  | nil => simp [dictSet, dlookup, h]
  | cons p m ih =>
    obtain ⟨k0, v0⟩ := p
    by_cases h0 : k0 = k
    · subst h0
      simp [dictSet, dlookup, h]
    · simp [dictSet, h0, dlookup, ih]

theorem lookCites_dictSet_self (m : List (String × String × Nat)) (u n : String) (c : Nat) :
    lookCites (dictSet m u (n, c)) u = some c := by
  rw [lookCites, dlookup_dictSet_self]
  rfl

theorem lookCites_dictSet_ne (m : List (String × String × Nat)) (u d n : String) (c : Nat)
    (h : u ≠ d) : lookCites (dictSet m u (n, c)) d = lookCites m d := by
  rw [lookCites, dlookup_dictSet_ne _ _ _ _ h]
  rfl

theorem paperCitations_foldl (ps : List Project) :
    ∀ (m : List (String × String × Nat)) (d : String),
      lookCites (ps.foldl paperStep m) d = combineMax (lookCites m d) (contribs ps d) := by
  induction ps with
  | nil => intro m d; simp [contribs, combineMax]
  | cons p ps ih =>
    intro m d
    rw [List.foldl_cons, ih (paperStep m p) d]
    cases hfd : firstDoi p with
    | none =>
      simp only [paperStep, hfd, contribs, List.filterMap_cons]
    | some uc =>
      obtain ⟨u, c⟩ := uc
      by_cases hu : u = d
      · subst hu
        have hcontrib : contribs (p :: ps) u = c :: contribs ps u := by
          simp [contribs, List.filterMap_cons, hfd]
        rw [hcontrib]
        cases hmu : lookCites m u with
        | none =>
          have hstep : paperStep m p = dictSet m u (p.name, c) := by
            simp only [paperStep, hfd, hmu]
          rw [hstep, lookCites_dictSet_self]
          rfl
        | some c0 =>
          by_cases hc : c0 < c
          · have hstep : paperStep m p = dictSet m u (p.name, c) := by
              simp only [paperStep, hfd, hmu, if_pos hc]
            rw [hstep, lookCites_dictSet_self]
            have hred : combineMax (some c0) (c :: contribs ps u)
                = combineMax (some (max c0 c)) (contribs ps u) := rfl
            rw [hred, Nat.max_eq_right (le_of_lt hc)]
          · have hstep : paperStep m p = m := by
              simp only [paperStep, hfd, hmu, if_neg hc]
            rw [hstep, hmu]
            have hred : combineMax (some c0) (c :: contribs ps u)
                = combineMax (some (max c0 c)) (contribs ps u) := rfl
            rw [hred, Nat.max_eq_left (Nat.le_of_not_lt hc)]
      · have hcontrib : contribs (p :: ps) d = contribs ps d := by
          simp [contribs, List.filterMap_cons, hfd, hu]
        rw [hcontrib]
        have hstep : lookCites (paperStep m p) d = lookCites m d := by
          cases hmu : lookCites m u with
          | none =>
            have hs : paperStep m p = dictSet m u (p.name, c) := by
              simp only [paperStep, hfd, hmu]
            rw [hs, lookCites_dictSet_ne _ _ _ _ _ hu]
          | some c0 =>
            by_cases hc : c0 < c
            · have hs : paperStep m p = dictSet m u (p.name, c) := by
                simp only [paperStep, hfd, hmu, if_pos hc]
              rw [hs, lookCites_dictSet_ne _ _ _ _ _ hu]
            · have hs : paperStep m p = m := by
                simp only [paperStep, hfd, hmu, if_neg hc]
              rw [hs]
        rw [hstep]

theorem combineMax_some_spec :
    ∀ (l : List Nat) (c0 c : Nat), combineMax (some c0) l = some c →
      (c = c0 ∨ c ∈ l) ∧ c0 ≤ c ∧ ∀ x ∈ l, x ≤ c := by
  intro l
  induction l with
  | nil =>
    intro c0 c h
    rw [combineMax] at h
    obtain rfl : c0 = c := by injection h
    exact ⟨Or.inl rfl, le_refl _, by simp⟩
  | cons a l ih =>
    intro c0 c h
    rw [combineMax] at h
    obtain ⟨h1, h2, h3⟩ := ih (max c0 a) c h
    refine ⟨?_, le_trans (Nat.le_max_left c0 a) h2, ?_⟩
    · rcases h1 with he | hm
      · rcases max_choice c0 a with hc | hc
        · exact Or.inl (he.trans hc)
        · refine Or.inr ?_
          rw [he, hc]
          exact List.mem_cons_self a l
      · exact Or.inr (List.mem_cons_of_mem a hm)
    · intro x hx
      rcases List.mem_cons.mp hx with rfl | hm
      · exact le_trans (Nat.le_max_right c0 x) h2
      · exact h3 x hm

/-- Project citing doi "X" with 5 citations. -/
def pX5 : Project := ⟨"P1", "", [("a", "la")], [⟨"doi", "X", 5⟩], "", 0⟩

/-- Project citing doi "X" with 12 citations. -/
def pX12 : Project := ⟨"P2", "", [("b", "lb")], [⟨"doi", "X", 12⟩], "", 0⟩

/-- C5: the citation aggregation keeps, for every doi, the maximum citation
count contributed (never merely the last seen): the stored count is the
running maximum of all contributions, it is itself one of the contributed
counts and dominates all of them, and on the claim's two-project example
(citations 5 and 12 for doi "X") the aggregate is 12 in both processing
orders. -/
theorem C5_doi_max_aggregation :
    (∀ (ps : List Project) (d : String),
      lookCites (paperCitations ps) d = combineMax none (contribs ps d))
    ∧ (∀ (ps : List Project) (d : String) (c : Nat),
        lookCites (paperCitations ps) d = some c →
        (c ∈ contribs ps d ∧ ∀ x ∈ contribs ps d, x ≤ c))
    ∧ lookCites (paperCitations [pX5, pX12]) "X" = some 12
    ∧ lookCites (paperCitations [pX12, pX5]) "X" = some 12 := by
  have hgen : ∀ (ps : List Project) (d : String),
      lookCites (paperCitations ps) d = combineMax none (contribs ps d) :=
    fun ps d => paperCitations_foldl ps [] d
  refine ⟨hgen, fun ps d c h => ?_, by decide, by decide⟩
  rw [hgen ps d] at h
  cases hl : contribs ps d with
  | nil =>
    rw [hl] at h
    simp [combineMax] at h
  | cons a l =>
    rw [hl] at h
    replace h : combineMax (some a) l = some c := h
    obtain ⟨h1, h2, h3⟩ := combineMax_some_spec l a c h
    constructor
    · rcases h1 with he | hm
      · rw [he]
        exact List.mem_cons_self a l
      · exact List.mem_cons_of_mem a hm
    · intro x hx
      rcases List.mem_cons.mp hx with rfl | hm
      · exact h2
      · exact h3 x hm

/-- Witness for C5: the max-characterization applied to the concrete
two-project example. -/
theorem C5_doi_max_aggregation_witness :
    lookCites (paperCitations [pX5, pX12]) "X" = some 12
    ∧ (12 ∈ contribs [pX5, pX12] "X" ∧ ∀ x ∈ contribs [pX5, pX12] "X", x ≤ 12) :=
  ⟨by decide, C5_doi_max_aggregation.2.1 [pX5, pX12] "X" 12 (by decide)⟩

/-! ### The visible-author-count heuristic (line 83)

```python
num_of_visible = int(min(mean(num_of_authors), median(num_of_authors)))
```
numpy's `mean` and `median` over integer data are real-valued, modelled in ℚ;
Python's `int(·)` truncates toward zero. -/

/-- numpy `mean`. -/
def mean (l : List Nat) : ℚ := ((l.sum : Nat) : ℚ) / ((l.length : Nat) : ℚ)

/-- numpy `median`: the middle element of the ascending sort for odd length,
the average of the two middle elements for even length. -/
def median (l : List Nat) : ℚ :=
  if l.length % 2 = 1 then (((l.insertionSort (· ≤ ·)).getD (l.length / 2) 0 : Nat) : ℚ)
  else ((((l.insertionSort (· ≤ ·)).getD (l.length / 2 - 1) 0 : Nat) : ℚ)
    + (((l.insertionSort (· ≤ ·)).getD (l.length / 2) 0 : Nat) : ℚ)) / 2

/-- Python `int(·)` on a float: truncation toward zero. -/
def pyInt (q : ℚ) : Int := Int.tdiv q.num (q.den : Int)

/-- Line 83: `int(min(mean(num_of_authors), median(num_of_authors)))`. -/
def numVisible (l : List Nat) : Int := pyInt (min (mean l) (median l))

theorem pyInt_eq_floor (q : ℚ) (h : 0 ≤ q) : pyInt q = ⌊q⌋ := by
  obtain ⟨n, hn⟩ : ∃ n : Nat, q.num = (n : Int) :=
    ⟨q.num.toNat, (Int.toNat_of_nonneg (Rat.num_nonneg.mpr h)).symm⟩
  have hq : q = ((n : ℚ) / ((q.den : Nat) : ℚ)) := by
    conv_lhs => rw [← Rat.num_div_den q]
    rw [hn, Int.cast_natCast]
  calc pyInt q = Int.tdiv (n : Int) (q.den : Int) := by rw [pyInt, hn]
    _ = ((n / q.den : Nat) : Int) := rfl
    _ = (n : Int) / (q.den : Int) := rfl
    _ = ⌊((n : ℚ) / ((q.den : Nat) : ℚ))⌋ := (Rat.floor_natCast_div_natCast n q.den).symm
    _ = ⌊q⌋ := by rw [← hq]

theorem mean_nonneg (l : List Nat) : 0 ≤ mean l := by
  rw [mean]
  positivity

theorem median_nonneg (l : List Nat) : 0 ≤ median l := by
  rw [median]
  split
  · exact Nat.cast_nonneg _
  · positivity

/-- C7: the visible-author count is `floor(min(mean(sizes), median(sizes)))`
for every sizes list (in particular a length-1 list needs no special casing
and produces no error), with the claim's three examples: `[1] → 1`,
`[1,3,5] → 3`, `[1,2,10] → 2`. -/
theorem C7_visible_count :
    (∀ l : List Nat, numVisible l = ⌊min (mean l) (median l)⌋)
    ∧ numVisible [1] = 1 ∧ numVisible [1, 3, 5] = 3 ∧ numVisible [1, 2, 10] = 2 := by
  refine ⟨fun l => pyInt_eq_floor _ (le_min (mean_nonneg l) (median_nonneg l)),
    by decide, by decide, by decide⟩

/-! ### Badge / link / author formatting (lines 15–66)

The `badges` set is discovered by a filesystem glob at import time in the
source; it is passed explicitly here.  String formatting mirrors the source's
f-strings by concatenation. -/

def colab_url (url : String) : String :=
  "[![Open In Colab](images/colab.svg)](" ++ url ++ ")"

def doi_url (url : String) : String :=
  "[![](https://api.juleskreuer.eu/citation-badge.php?doi="
    ++ ((url.splitOn "org/").getD 1 "") ++ ")](" ++ url ++ ")"

def git_url (url : String) : String :=
  "[![](https://img.shields.io/github/stars/"
    ++ String.intercalate "/" ((((url.splitOn "com/").getD 1 "").splitOn "/").take 2)
    ++ "?style=social)](" ++ url ++ ")"

def pypi_url (package : String) (period : String) : String :=
  "[![](https://img.shields.io/pypi/" ++ period ++ "/" ++ package
    ++ "?style=flat&logo=pypi&label=%E2%80%8D&labelColor=f7f7f4&color=006dad)](https://pypi.org/"
    ++ package ++ "/)"

def parse_link (badges : List String) (p : String × String) (height : Nat) : String :=
  if p.1 ∈ badges then
    "[<img src=\"images/" ++ p.1 ++ ".svg\" alt=\"" ++ p.1 ++ "\" height="
      ++ toString height ++ "/>](" ++ p.2 ++ ")"
  else "[" ++ p.1 ++ "](" ++ p.2 ++ ")"

/-- `f'<li>[{author}]({link})</li>'`, the item template of `parse_authors`
and `get_top_authors`. -/
def authorItem (p : AuthorKey) : String := "<li>[" ++ p.1 ++ "](" ++ p.2 ++ ")</li>"

/-- `parse_authors` (lines 39–44). -/
def parse_authors (authors : List AuthorKey) (numVis : Nat) : String :=
  if authors.length = 1 then
    "[" ++ (authors.getD 0 ("", "")).1 ++ "](" ++ (authors.getD 0 ("", "")).2 ++ ")"
  else if authors.length ≤ numVis + 1 then
    "<ul>" ++ String.intercalate " " ((authors.take (numVis + 1)).map authorItem) ++ "</ul>"
  else
    "<ul>" ++ String.intercalate " " ((authors.take numVis).map authorItem)
      ++ "<details><summary>others</summary>"
      ++ String.intercalate " " ((authors.drop numVis).map authorItem)
      ++ "</ul></details>"

/-- C10: the collapsed "others" disclosure branch is taken exactly when the
author list has strictly more than `numVis + 1` entries, and then the
disclosure holds `authors[numVis:]`, which has at least two entries; a list of
at most `numVis + 1` authors (and more than one) is rendered fully inline —
the `authors[:numVis+1]` slice is the whole list; a single author is a bare
link with no list markup. -/
theorem C10_authors_disclosure :
    (∀ (p : AuthorKey) (n : Nat), parse_authors [p] n = "[" ++ p.1 ++ "](" ++ p.2 ++ ")")
    ∧ (∀ (authors : List AuthorKey) (n : Nat),
        authors.length ≤ n + 1 → authors.length ≠ 1 →
        parse_authors authors n
          = "<ul>" ++ String.intercalate " " (authors.map authorItem) ++ "</ul>")
    ∧ (∀ (authors : List AuthorKey) (n : Nat), n + 1 < authors.length →
        parse_authors authors n
          = "<ul>" ++ String.intercalate " " ((authors.take n).map authorItem)
            ++ "<details><summary>others</summary>"
            ++ String.intercalate " " ((authors.drop n).map authorItem)
            ++ "</ul></details>"
        ∧ 2 ≤ (authors.drop n).length) := by
  refine ⟨fun p n => rfl, fun authors n h1 h2 => ?_, fun authors n h => ?_⟩
  · rw [parse_authors, if_neg h2, if_pos h1, List.take_of_length_le h1]
  · have h2 : authors.length ≠ 1 := by omega
    rw [parse_authors, if_neg h2, if_neg (by omega)]
    refine ⟨rfl, ?_⟩
    rw [List.length_drop]
    omega

/-- Witness for C10: the three branches at concrete author lists. -/
theorem C10_authors_disclosure_witness :
    parse_authors [("x", "u")] 0 = "[" ++ ("x", "u").1 ++ "](" ++ ("x", "u").2 ++ ")"
    ∧ parse_authors [("a", "1"), ("b", "2")] 1
        = "<ul>" ++ String.intercalate " " ([(("a" : String), ("1" : String)),
            ("b", "2")].map authorItem) ++ "</ul>"
    ∧ (parse_authors [("a", "1"), ("b", "2"), ("c", "3")] 1
        = "<ul>"
          ++ String.intercalate " "
            (([(("a" : String), ("1" : String)), ("b", "2"), ("c", "3")].take 1).map authorItem)
          ++ "<details><summary>others</summary>"
          ++ String.intercalate " "
            (([(("a" : String), ("1" : String)), ("b", "2"), ("c", "3")].drop 1).map authorItem)
          ++ "</ul></details>"
      ∧ 2 ≤ ([(("a" : String), ("1" : String)), ("b", "2"), ("c", "3")].drop 1).length) :=
  ⟨C10_authors_disclosure.1 ("x", "u") 0,
    C10_authors_disclosure.2.1 [("a", "1"), ("b", "2")] 1 (by decide) (by decide),
    C10_authors_disclosure.2.2 [("a", "1"), ("b", "2"), ("c", "3")] 1 (by decide)⟩

/-! ### `parse_links` (lines 46–66) -/

/-- `defaultdict(list)` grouping: append `v` to the entry for `k`, keeping
first-occurrence key order. -/
def addGroup : List (String × List String) → String → String → List (String × List String)
  | [], k, v => [(k, [v])]
  | (k0, vs) :: m, k, v => if k0 = k then (k0, vs ++ [v]) :: m else (k0, vs) :: addGroup m k v

/-- The `dct` of `parse_links`: urls grouped by link kind. -/
def groupLinks (ls : List Link) : List (String × List String) :=
  ls.foldl (fun m l => addGroup m l.kind l.url) []

/-- `dict.pop(k)`: drop the entry with key `k`. -/
def dictPop {β : Type} : List (String × β) → String → List (String × β)
  | [], _ => []
  | (k0, v) :: m, k => if k0 = k then m else (k0, v) :: dictPop m k

/-- `dct['git'].pop(0)`: drop the first url of the entry for `k`, in place. -/
def dictTail : List (String × List String) → String → List (String × List String)
  | [], _ => []
  | (k0, vs) :: m, k => if k0 = k then (k0, vs.drop 1) :: m else (k0, vs) :: dictTail m k

/-- `parse_links`. -/
def parse_links (badges : List String) (ls : List Link) : String :=
  if ls.length = 0 then ""
  else
    let dct0 := groupLinks ls
    let doiPart := match dlookup dct0 "doi" with
      | some urls => doi_url (urls.getD 0 "") ++ " "
      | none => ""
    let dct1 := if (dlookup dct0 "doi").isSome then dictPop dct0 "doi" else dct0
    let gitPart := match dlookup dct1 "git" with
      | some urls => git_url (urls.getD 0 "") ++ " "
      | none => ""
    let dct2 := match dlookup dct1 "git" with
      | some urls => if urls.length = 1 then dictPop dct1 "git" else dictTail dct1 "git"
      | none => dct1
    let line := doiPart ++ gitPart
    if dct2.length = 0 then line
    else line ++ "<ul>"
      ++ String.join (dct2.map (fun kv =>
          "<li>" ++ String.intercalate ", " (kv.2.map (fun url => parse_link badges (kv.1, url) 20))
            ++ "</li>"))
      ++ "</ul>"

/-! ### `generate_table` (lines 126–139) -/

/-- `sorted(data, key=lambda kv: kv['update'], reverse=True)`. -/
def updateDesc (p q : Project) : Prop := q.update ≤ p.update

instance : DecidableRel updateDesc := fun p q => Nat.decLe q.update p.update

instance : IsTotal Project updateDesc := ⟨fun a b => Nat.le_total b.update a.update⟩

instance : IsTrans Project updateDesc := ⟨fun _ _ _ h h2 => Nat.le_trans h2 h⟩

/-- `sorted(line['links'], key=lambda x: x[0])`. -/
def kindAsc (p q : Link) : Prop := p.kind ≤ q.kind

instance : DecidableRel kindAsc := fun p q => inferInstanceAs (Decidable (p.kind ≤ q.kind))

instance : IsTotal Link kindAsc := ⟨fun a b => le_total a.kind b.kind⟩

instance : IsTrans Link kindAsc := ⟨fun _ _ _ h h2 => le_trans h h2⟩

/-- One data row of the table.  `datetime.fromtimestamp(...).strftime(...)`
depends on the host timezone and is passed in as `fmtDate`. -/
def formatRow (badges : List String) (fmtDate : Nat → String) (numVis : Nat)
    (p : Project) : String :=
  "| " ++ p.name ++ " | " ++ p.description ++ " | " ++ parse_authors p.author numVis
    ++ " | " ++ parse_links badges (p.links.insertionSort kindAsc) ++ " | "
    ++ colab_url p.colab ++ " | " ++ fmtDate p.update ++ " |"

/-- `generate_table`: the two header rows followed by one row per project,
sorted by update time descending. -/
def generate_table (badges : List String) (fmtDate : Nat → String)
    (data : List Project) (numVis : Nat) : List String :=
  ["| name | description | authors | links | colaboratory | update |",
   "|------|-------------|:--------|:------|:------------:|:------:|"]
  ++ (data.insertionSort updateDesc).map (formatRow badges fmtDate numVis)

/-! ### `get_top_repos` dict build (lines 91–100) -/

/-- `Option`-propagating `foldl` (a raised exception aborts the whole loop). -/
def ofoldl {α β : Type} (f : β → α → Option β) : β → List α → Option β
  | b, [] => some b
  | b, a :: l =>
    match f b a with
    | none => none
    | some b2 => ofoldl f b2 l

/-- The first `git` link of a project, as `(url, stars)` (the loop `break`s
after processing it). -/
def firstGit (p : Project) : Option (String × Nat) :=
  (p.links.find? (fun l => l.kind == "git")).map (fun l => (l.url, l.metric))

/-- One step of the `get_top_repos` dict build; `none` when the RepoKey
slicing raises on the url. -/
def repoStep (m : List (String × Nat)) (p : Project) : Option (List (String × Nat)) :=
  match firstGit p with
  | none => some m
  | some (url, stars) =>
    match repoKeyS url with
    | none => none
    | some key => some (dictSet m key stars)

/-- The RepoKey → stars dict built by `get_top_repos`. -/
def repoStars (ps : List Project) : Option (List (String × Nat)) :=
  ofoldl repoStep [] ps

/-- C4: an empty project collection yields empty mappings from all three
aggregations — author counts, repo stars (with no RepoKey error raised), and
paper citations — and `generate_table` on empty data produces exactly the two
header rows and no data rows, with no error. -/
theorem C4_empty_inputs :
    authorCounts [] = []
    ∧ repoStars [] = some []
    ∧ paperCitations [] = []
    ∧ (∀ (badges : List String) (fmtDate : Nat → String) (numVis : Nat),
        generate_table badges fmtDate [] numVis
          = ["| name | description | authors | links | colaboratory | update |",
             "|------|-------------|:--------|:------|:------------:|:------:|"]) :=
  ⟨rfl, rfl, rfl, fun _ _ _ => rfl⟩

/-! ### The remaining render functions and the whole-run pipeline -/

/-- The requested top-K; the source's global `TOP_K = 20` initial value. -/
def TOP_K : Nat := 20

/-- The `<ul>` of top authors returned by `get_top_authors` (line 86). -/
def renderAuthorsUl (l : List (AuthorKey × Nat)) : String :=
  "<ul>" ++ String.intercalate " " (l.map (fun e => authorItem e.1)) ++ "</ul>"

/-- `get_top_authors`: the rendered top-author list, the visible-author count
(line 83), and the effective cutoff written into the global `TOP_K`
(line 84); `none` models the `IndexError` of line 79. -/
def get_top_authors (ps : List Project) (topK : Nat) : Option (String × Int × Nat) :=
  match selectTopAuthors (authorCounts ps) topK with
  | none => none
  | some (res, idx) =>
    some (renderAuthorsUl res, numVisible (ps.map (·.author.length)), idx)

/-- `f"<li>{url.split('com/')[1].split('/')[1]}\t{git_url(url)}</li>"`. -/
def repoItem (url : String) : String :=
  "<li>" ++ ((((url.splitOn "com/").getD 1 "").splitOn "/").getD 1 "") ++ "\t"
    ++ git_url url ++ "</li>"

/-- `get_top_repos` (lines 88–103). -/
def get_top_repos (ps : List Project) (topK : Nat) : Option String :=
  match repoStars ps with
  | none => none
  | some repos =>
    some ("<ul>"
      ++ String.intercalate " "
        (((repos.insertionSort descBySnd).take topK).map (fun kv => repoItem kv.1))
      ++ "</ul>")

/-- `get_top_papers` (lines 105–117): entries re-shaped to
`((name, url), citations)` and sorted by citations descending. -/
def get_top_papers (ps : List Project) (topK : Nat) : String :=
  "<ul>"
    ++ String.intercalate " "
      (((((paperCitations ps).map (fun kv => ((kv.2.1, kv.1), kv.2.2))).insertionSort
          descBySnd).take topK).map
        (fun e => "<li>" ++ e.1.1 ++ "\t" ++ doi_url e.1.2 ++ "</li>"))
    ++ "</ul>"

/-- `sorted(packages, key=lambda p: p[2], reverse=True)`. -/
def pkgTotalDesc (p q : String × Nat × Nat) : Prop := q.2.2 ≤ p.2.2

instance : DecidableRel pkgTotalDesc := fun p q => Nat.decLe q.2.2 p.2.2

instance : IsTotal (String × Nat × Nat) pkgTotalDesc := ⟨fun a b => Nat.le_total b.2.2 a.2.2⟩

instance : IsTrans (String × Nat × Nat) pkgTotalDesc := ⟨fun _ _ _ h h2 => Nat.le_trans h2 h⟩

/-- `get_best_of_the_best` (lines 119–124). -/
def get_best_of_the_best (ps : List Project) (authors : String)
    (packages : List (String × Nat × Nat)) (topK : Nat) : Option String :=
  match get_top_repos ps topK with
  | none => none
  | some reposStr =>
    some ("| authors | repositories | papers | packages |\n|---|---|---|---|\n| "
      ++ authors ++ " | " ++ reposStr ++ " | " ++ get_top_papers ps topK ++ " | "
      ++ ("<ul>"
        ++ String.intercalate " "
          (((packages.insertionSort pkgTotalDesc).take topK).map
            (fun p => "<li>" ++ p.1 ++ "\t" ++ pypi_url p.1 "dm" ++ "</li>"))
        ++ "</ul>")
      ++ " |")

/-- The per-project link scan of `get_trending` (lines 195–207): the first
`git` link and the first `doi` link of each project update the two dicts, the
`used` set tracked by the two booleans. -/
def projTrendStep (name : String) :
    List Link → Bool → Bool →
    List (String × Nat) × List (String × String × Nat) →
    Option (List (String × Nat) × List (String × String × Nat))
  | [], _, _, acc => some acc
  | l :: ls, usedGit, usedDoi, (stars, cits) =>
    if l.kind = "git" ∧ usedGit = false then
      match repoKeyS l.url with
      | none => none
      | some key => projTrendStep name ls true usedDoi (dictSet stars key l.metric, cits)
    else if l.kind = "doi" ∧ usedDoi = false then
      projTrendStep name ls usedGit true (stars, dictSet cits name (l.url, l.metric))
    else projTrendStep name ls usedGit usedDoi (stars, cits)

/-- The `new_stars` / `new_citations` dicts of `get_trending`. -/
def buildTrend (ps : List Project) :
    Option (List (String × Nat) × List (String × String × Nat)) :=
  ofoldl (fun acc p => projTrendStep p.name p.links false false acc) ([], []) ps

/-- `get_trending` (lines 188–217), with the previous snapshots and package
download counts passed in (the source reads/fetches them itself). -/
def get_trending (ps : List Project) (packages : List (String × Nat × Nat))
    (oldStars : List (String × Nat)) (oldCits : List (String × String × Nat))
    (topK : Nat) : Option String :=
  match buildTrend ps with
  | none => none
  | some (newStars, newCits) =>
    match trendingRepos newStars oldStars topK with
    | none => none
    | some repoKeys =>
      match trendingPapers newCits oldCits topK with
      | none => none
      | some paperNames =>
        match trendingPackages packages topK with
        | none => none
        | some pkgTriples =>
          some ("| repositories | papers | packages |\n|---|---|---|\n| "
            ++ ("<ul>" ++ String.intercalate " " (repoKeys.map repoItem) ++ "</ul>")
            ++ " | "
            ++ ("<ul>"
              ++ String.intercalate " " (paperNames.map (fun name =>
                  "<li>" ++ name ++ "\t"
                    ++ doi_url (match dlookup newCits name with
                        | some uc => uc.1
                        | none => "")
                    ++ "</li>"))
              ++ "</ul>")
            ++ " | "
            ++ ("<ul>"
              ++ String.intercalate " " (pkgTriples.map (fun p =>
                  "<li>" ++ p.1 ++ "\t" ++ pypi_url p.1 "dw" ++ "</li>"))
              ++ "</ul>")
            ++ " |")

/-- The input files of a run (plus the package download counts, which the
source fetches from the network in `get_pypi_downloads`): `none` models a
missing or malformed source that raises while loading. -/
structure Inputs where
  research : Option (List Project)
  tutorials : Option (List Project)
  stars : Option (List (String × Nat))
  citations : Option (List (String × String × Nat))
  packages : Option (List (String × Nat × Nat))

def hitsBadge : String := "[![Hits](https://hits.seeyoufarm.com/api/count/incr/badge.svg?url=https://github.com/amrzv/awesome-colab-notebooks)](https://hits.seeyoufarm.com)"

def loliCounter : String := "![awesome-colab-notebooks](https://count.getloli.com/get/@awesome-colab-notebooks?theme=rule34)"

def renderNote : String := "\nThe page might not be rendered properly. Please open [README.md](https://github.com/amrzv/awesome-colab-notebooks/blob/main/README.md) file directly"

def pageTitle : String := "# Awesome colab notebooks collection for ML experiments"

def starchartLine : String := "\n[![Stargazers over time](https://starchart.cc/amrzv/awesome-colab-notebooks.svg?variant=adaptive)](https://starchart.cc/amrzv/awesome-colab-notebooks)"

def generatedByLine : String := "\n(generated by [generate_markdown.py](generate_markdown.py) based on [research.json](data/research.json) and [tutorials.json](data/tutorials.json))"

/-- The `to_write` list of `generate_markdown` (lines 219–237): every input
read and every transform, in source order, with the effective top-K from
`get_top_authors` threaded to the later calls (the source's global `TOP_K`
mutation); `none` as soon as any load or transform raises.  `topK` is the
global's initial value (20 in the source). -/
def genLines (badges : List String) (fmtDate : Nat → String) (topK : Nat)
    (inp : Inputs) : Option (List String) := do
  let research ← inp.research
  let tutorials ← inp.tutorials
  let trip ← get_top_authors (research ++ tutorials) topK
  let packages ← inp.packages
  let oldStars ← inp.stars
  let oldCits ← inp.citations
  let trendStr ← get_trending (research ++ tutorials) packages oldStars oldCits trip.2.2
  let bestStr ← get_best_of_the_best (research ++ tutorials) trip.1 packages trip.2.2
  some ([hitsBadge, loliCounter, renderNote, pageTitle, "## Trending", trendStr,
      "## Research"]
    ++ generate_table badges fmtDate research trip.2.1.toNat
    ++ ["## Tutorials"]
    ++ generate_table badges fmtDate tutorials trip.2.1.toNat
    ++ ["# Best of the best", bestStr, starchartLine, generatedByLine])

/-- Lines 238–239: `README.md` is opened for writing (truncating the previous
content) only after `to_write` has been fully computed, so a run that raises
leaves the previous file content in place. -/
def runGenerate (badges : List String) (fmtDate : Nat → String) (topK : Nat)
    (inp : Inputs) (prevReadme : Option String) : Option String :=
  match genLines badges fmtDate topK inp with
  | none => prevReadme
  | some ls => some (String.intercalate "\n" ls)

/-- C8: a run that raises while loading or processing inputs produces no
output — the previous README content is left unchanged — because the output is
written only from a fully computed `to_write` list; a successful run implies
every input was read; and a missing/malformed input file (or a failed package
fetch) makes the run fail. -/
theorem C8_fail_preserves_output :
    (∀ (badges : List String) (fmtDate : Nat → String) (topK : Nat) (inp : Inputs)
        (prev : Option String),
      genLines badges fmtDate topK inp = none →
      runGenerate badges fmtDate topK inp prev = prev)
    ∧ (∀ (badges : List String) (fmtDate : Nat → String) (topK : Nat) (inp : Inputs)
        (ls : List String),
      genLines badges fmtDate topK inp = some ls →
      inp.research.isSome ∧ inp.tutorials.isSome ∧ inp.packages.isSome
        ∧ inp.stars.isSome ∧ inp.citations.isSome)
    ∧ (∀ (badges : List String) (fmtDate : Nat → String) (topK : Nat) (inp : Inputs),
      (inp.research = none ∨ inp.tutorials = none ∨ inp.packages = none
        ∨ inp.stars = none ∨ inp.citations = none) →
      genLines badges fmtDate topK inp = none) := by
  have h2 : ∀ (badges : List String) (fmtDate : Nat → String) (topK : Nat) (inp : Inputs)
      (ls : List String),
      genLines badges fmtDate topK inp = some ls →
      inp.research.isSome ∧ inp.tutorials.isSome ∧ inp.packages.isSome
        ∧ inp.stars.isSome ∧ inp.citations.isSome := by
    intro badges fmtDate topK inp ls h
    rw [genLines] at h
    rcases Option.bind_eq_some.mp h with ⟨research, hres, h⟩
    rcases Option.bind_eq_some.mp h with ⟨tutorials, htut, h⟩
    rcases Option.bind_eq_some.mp h with ⟨trip, htrip, h⟩
    rcases Option.bind_eq_some.mp h with ⟨packages, hpkg, h⟩
    rcases Option.bind_eq_some.mp h with ⟨oldStars, hst, h⟩
    rcases Option.bind_eq_some.mp h with ⟨oldCits, hcit, h⟩
    exact ⟨by simp [hres], by simp [htut], by simp [hpkg], by simp [hst], by simp [hcit]⟩
  refine ⟨fun badges fmtDate topK inp prev h => by simp only [runGenerate, h], h2, ?_⟩
  intro badges fmtDate topK inp h
  cases hg : genLines badges fmtDate topK inp with
  | none => rfl
  | some ls =>
    obtain ⟨hr, ht, hp, hs, hc⟩ := h2 badges fmtDate topK inp ls hg
    rcases h with h | h | h | h | h
    · rw [h] at hr
      exact absurd hr (by simp)
    · rw [h] at ht
      exact absurd ht (by simp)
    · rw [h] at hp
      exact absurd hp (by simp)
    · rw [h] at hs
      exact absurd hs (by simp)
    · rw [h] at hc
      exact absurd hc (by simp)

/-- A run whose research input is missing. -/
def inpMissing : Inputs := ⟨none, some [], some [], some [], some []⟩

/-- Witness for C8: with the research file missing, the run fails and the
previous README content is preserved. -/
theorem C8_fail_preserves_output_witness :
    genLines [] (fun _ => "") 20 inpMissing = none
    ∧ runGenerate [] (fun _ => "") 20 inpMissing (some "OLD") = some "OLD" :=
  have h := C8_fail_preserves_output.2.2 [] (fun _ => "") 20 inpMissing (Or.inl rfl)
  ⟨h, C8_fail_preserves_output.1 [] (fun _ => "") 20 inpMissing (some "OLD") h⟩

end GenMD
